import Mathlib

/-!
Verification of the orientation and zoom control core of the
h5p-ndla-three-sixty 360-degree viewer.

The JavaScript sources are shallowly embedded below:
 - `PositionControls` (src/scripts/position-controls.js): session state,
   `start`, `move`, `end`; angular accumulators use JavaScript's `%`
   operator, modelled by `jsMod` (truncated remainder, sign of dividend).
 - the camera `move` handler of `NDLAThreeSixty` (main class): pitch
   clamping against `MAX_PITCH` minus half the field of view, and the
   yaw remap into `[0, 2*pi)`.
 - `NDLAThreeSixty.setElementPosition`, `setCameraPosition`,
   `getCurrentPosition`, `remove` (with JavaScript `indexOf`/`splice`
   semantics).
 - `ZoomControls` (src/scripts/zoom-controls.js): `dollyIn`/`dollyOut`
   over the rational numbers (all of its arithmetic is rational).

Angles are idealized as real numbers, exactly as the spec treats them.
-/

namespace ThreeSixty

/-- JavaScript truncation toward zero, on real numbers. -/
noncomputable def jsTrunc (x : ℝ) : ℤ := if 0 ≤ x then ⌊x⌋ else ⌈x⌉

/-- JavaScript remainder operator `a % b`: truncated remainder, which keeps
the sign of the dividend `a` (unlike the mathematical modulus). -/
noncomputable def jsMod (a b : ℝ) : ℝ := a - b * jsTrunc (a / b)

theorem jsMod_lt (a b : ℝ) (hb : 0 < b) : jsMod a b < b := by
  unfold jsMod jsTrunc
  rcases le_or_lt 0 (a / b) with h | h
  · rw [if_pos h]
    have h1 : a / b - ⌊a / b⌋ < 1 := by
      have := Int.fract_lt_one (a / b)
      rw [Int.fract] at this
      linarith
    have hb' : b ≠ 0 := ne_of_gt hb
    have key : a - b * (⌊a / b⌋ : ℝ) = b * (a / b - ⌊a / b⌋) := by
      field_simp
    rw [key]
    calc b * (a / b - ⌊a / b⌋) < b * 1 := by
          exact mul_lt_mul_of_pos_left h1 hb
      _ = b := mul_one b
  · rw [if_neg (not_le.mpr h)]
    have h1 : a / b - ⌈a / b⌉ ≤ 0 := by
      have := Int.le_ceil (a / b)
      linarith
    have hb' : b ≠ 0 := ne_of_gt hb
    have key : a - b * (⌈a / b⌉ : ℝ) = b * (a / b - ⌈a / b⌉) := by
      field_simp
    rw [key]
    have : b * (a / b - ⌈a / b⌉) ≤ b * 0 := by
      exact mul_le_mul_of_nonneg_left h1 (le_of_lt hb)
    linarith

theorem neg_lt_jsMod (a b : ℝ) (hb : 0 < b) : -b < jsMod a b := by
  unfold jsMod jsTrunc
  have hb' : b ≠ 0 := ne_of_gt hb
  rcases le_or_lt 0 (a / b) with h | h
  · rw [if_pos h]
    have h1 : (0 : ℝ) ≤ a / b - ⌊a / b⌋ := by
      have := Int.fract_nonneg (a / b)
      rw [Int.fract] at this
      linarith
    have key : a - b * (⌊a / b⌋ : ℝ) = b * (a / b - ⌊a / b⌋) := by
      field_simp
    rw [key]
    have : b * 0 ≤ b * (a / b - ⌊a / b⌋) :=
      mul_le_mul_of_nonneg_left h1 (le_of_lt hb)
    nlinarith
  · rw [if_neg (not_le.mpr h)]
    have h1 : (-1 : ℝ) < a / b - ⌈a / b⌉ := by
      have := Int.ceil_lt_add_one (a / b)
      linarith
    have key : a - b * (⌈a / b⌉ : ℝ) = b * (a / b - ⌈a / b⌉) := by
      field_simp
    rw [key]
    nlinarith

theorem jsMod_eq_self (a b : ℝ) (hb : 0 < b) (h : |a| < b) : jsMod a b = a := by
  unfold jsMod jsTrunc
  have hb' : b ≠ 0 := ne_of_gt hb
  rcases le_or_lt 0 (a / b) with hd | hd
  · rw [if_pos hd]
    have ha : 0 ≤ a := by
      by_contra hneg
      push_neg at hneg
      have : a / b < 0 := div_neg_of_neg_of_pos hneg hb
      linarith
    have hab : a < b := lt_of_abs_lt h
    have : ⌊a / b⌋ = 0 := by
      rw [Int.floor_eq_zero_iff]
      constructor
      · exact hd
      · rw [div_lt_one hb]
        exact hab
    rw [this]
    push_cast
    ring
  · rw [if_neg (not_le.mpr hd)]
    have ha : a < 0 := by
      by_contra hpos
      push_neg at hpos
      have : 0 ≤ a / b := div_nonneg hpos (le_of_lt hb)
      linarith
    have hab : -b < a := neg_lt_of_abs_lt h
    have : ⌈a / b⌉ = 0 := by
      rw [Int.ceil_eq_zero_iff]
      constructor
      · show (-1 : ℝ) < a / b
        rw [lt_div_iff₀ hb]
        linarith
      · exact le_of_lt hd
    rw [this]
    push_cast
    ring

/-! ## PositionControls (src/scripts/position-controls.js) -/

/-- State of one `PositionControls` instance: constructor configuration plus
the mutable session fields (`alpha`, `beta`, `startPosition`,
`controlActive`).  `controlActive` starts out undefined (falsy), holds the
control identifier string while a session is active, and is reset to a
falsy value by `end()`. -/
structure PCState where
  friction : ℝ
  invert : ℝ
  isCamera : Bool
  isPanorama : Bool
  alpha : ℝ
  beta : ℝ
  startPosition : Option (ℝ × ℝ)
  controlActive : Option String

/-- Constructor state: `new PositionControls(element, friction, shouldInvert,
isCamera, isPanorama)` with `alpha = 0`, `beta = 0`. -/
noncomputable def pcInit (friction : ℝ) (shouldInvert isCamera isPanorama : Bool) : PCState :=
  { friction := friction
    invert := if shouldInvert then 1 else -1
    isCamera := isCamera
    isPanorama := isPanorama
    alpha := 0
    beta := 0
    startPosition := none
    controlActive := none }

/-- JavaScript truthiness of the `controlActive` field (`undefined`/`false`
map to `none`, a control identifier string is truthy iff nonempty). -/
def strTruthy : Option String → Bool
  | none => false
  | some s => decide (s ≠ "")

/-- Payload of the `move` event: the per-step deltas and the running
accumulated totals. -/
structure MoveEvent where
  alphaDelta : ℝ
  betaDelta : ℝ
  alpha : ℝ
  beta : ℝ

/-- PositionControls.start(x, y, control, event).  The `movestartPrevented`
argument models whether a `movestart` listener called `preventDefault`. -/
noncomputable def start (s : PCState) (x y : ℝ) (control : String)
    (movestartPrevented : Bool) : Bool × PCState :=
  if strTruthy s.controlActive then (false, s)
  else if movestartPrevented then (false, s)
  else
    (true,
     { s with
        startPosition := some (x, y)
        alpha := 0
        beta := 0
        controlActive := some control })

/-- PositionControls.end(): clears the active-session marker (and triggers
`movestop`, not modelled as data). -/
def endSession (s : PCState) : PCState := { s with controlActive := none }

/-- PositionControls.move(deltaX, deltaY, friction): zeroes `deltaY` in
panorama mode, divides by the friction, accumulates `alpha` and `beta`
through JavaScript `% (Math.PI * 2)`, then clamps `beta` to
`[-pi/2, pi/2]`.  Returns the new state and the triggered `move` event. -/
noncomputable def move (s : PCState) (deltaX deltaY friction : ℝ) :
    PCState × MoveEvent :=
  let dY : ℝ := if s.isPanorama then 0 else deltaY
  let alphaDelta := deltaX / friction
  let betaDelta := dY / friction
  let newAlpha := jsMod (s.alpha + alphaDelta) (2 * Real.pi)
  let b := jsMod (s.beta + betaDelta) (2 * Real.pi)
  let newBeta :=
    if b > Real.pi / 2 then Real.pi / 2
    else if b < -(Real.pi / 2) then -(Real.pi / 2)
    else b
  ({ s with alpha := newAlpha, beta := newBeta },
   { alphaDelta := alphaDelta, betaDelta := betaDelta
     alpha := newAlpha, beta := newBeta })

/-- Fold a sequence of `move(deltaX, deltaY, friction)` calls over a
controller state. -/
noncomputable def applyMoves (s : PCState) (ms : List (ℝ × ℝ × ℝ)) : PCState :=
  ms.foldl (fun t m => (move t m.1 m.2.1 m.2.2).1) s

/-- A concrete controller state right after an accepted `start`:
camera-style controller (friction 400, inverted), not panorama. -/
noncomputable def startedState : PCState :=
  (start (pcInit 400 true true false) 0 0 "mouse" false).2

/-! ## The camera `move` handler of `NDLAThreeSixty` -/

/-- NDLAThreeSixty.toRad: degree-to-radian conversion `value * (Math.PI / 180)`. -/
noncomputable def toRad (value : ℝ) : ℝ := value * (Real.pi / 180)

/-- NDLAThreeSixty.MAX_PITCH constant, `Math.PI / 2`. -/
noncomputable def MAX_PITCH : ℝ := Real.pi / 2

/-- Camera `move` handler wired in the `NDLAThreeSixty` constructor: from
the session-relative accumulated `(alpha, beta)` of the event and the
rotation recorded at `movestart` (`startY`, `startX`), it computes the
camera rotation `(rotation.y, rotation.x)`: the pitch is limited so the
visible edge stays within `MAX_PITCH`, and the yaw is remapped into
`[0, 2*pi)` (negative remainders are pushed forward). -/
noncomputable def cameraMoveHandler (fieldOfView startY startX : ℝ)
    (ev : MoveEvent) : ℝ × ℝ :=
  let yaw0 := startY + ev.alpha
  let pitch0 := startX + ev.beta
  let radsFromCameraCenter := toRad fieldOfView / 2
  let pitch :=
    if pitch0 + radsFromCameraCenter > MAX_PITCH then
      MAX_PITCH - radsFromCameraCenter
    else if pitch0 - radsFromCameraCenter < -MAX_PITCH then
      -MAX_PITCH + radsFromCameraCenter
    else pitch0
  let yaw1 := jsMod yaw0 (2 * Real.pi)
  let yaw := if yaw1 < 0 then yaw1 + 2 * Real.pi else yaw1
  (yaw, pitch)

/-! ## Element placement (NDLAThreeSixty.setElementPosition) -/

/-- Three.js vector. -/
structure Vec3 where
  x : ℝ
  y : ℝ
  z : ℝ

/-- Three.js Euler rotation with its rotation-order string. -/
structure Euler where
  order : String
  x : ℝ
  y : ℝ
  z : ℝ

/-- The parts of a Three.js `CSS3DObject` that the placement code touches. -/
structure ThreeObject where
  position : Vec3
  rotation : Euler

/-- Angular position `{yaw, pitch}` as consumed by `setElementPosition`. -/
structure ElemPosition where
  yaw : ℝ
  pitch : ℝ

/-- NDLAThreeSixty.setElementPosition: places an element on a display sphere
of radius 800 and rotates it to face the sphere's center, rotation order
`YXZ` (yaw, then pitch, then roll). -/
noncomputable def setElementPosition (el : ThreeObject) (p : ElemPosition) :
    ThreeObject :=
  let radius : ℝ := 800
  { el with
    position :=
      { x := radius * Real.sin p.yaw * Real.cos p.pitch
        y := radius * Real.sin p.pitch
        z := -radius * Real.cos p.yaw * Real.cos p.pitch }
    rotation :=
      { el.rotation with order := "YXZ", y := -p.yaw, x := p.pitch } }

/-! ## Scene coordinator state (NDLAThreeSixty) -/

/-- The coordinator fields touched by `setCameraPosition`,
`getCurrentPosition` and `remove`; placed elements are tracked by handle. -/
structure CoordState where
  cameraRotY : ℝ
  cameraRotX : ℝ
  isPanorama : Bool
  preventDeviceOrientation : Bool
  preventCameraMovement : Bool
  threeElements : List ℕ

/-- Events the coordinator emits to the host. -/
inductive CoordEvent where
  | movestop (pitch : ℝ) (yaw : ℝ)

/-- NDLAThreeSixty.setCameraPosition(yaw, pitch): early-returns while
`preventDeviceOrientation` is set; otherwise stores `rotation.y = -yaw`,
`rotation.x = pitch` (forced to 0 in panorama mode) and triggers a
`movestop` event. -/
noncomputable def setCameraPosition (s : CoordState) (yaw pitch : ℝ) :
    CoordState × List CoordEvent :=
  if s.preventDeviceOrientation then (s, [])
  else
    ({ s with
        cameraRotY := -yaw
        cameraRotX := if s.isPanorama then 0 else pitch },
     [CoordEvent.movestop pitch yaw])

/-- NDLAThreeSixty.getCurrentPosition: `{yaw: -rotation.y, pitch: rotation.x}`. -/
noncomputable def getCurrentPosition (s : CoordState) : ℝ × ℝ :=
  (-s.cameraRotY, s.cameraRotX)

/-! ## JavaScript Array.indexOf / Array.splice (NDLAThreeSixty.remove) -/

/-- JavaScript `Array.prototype.indexOf` starting at index `i`:
`-1` when the element does not occur. -/
def jsIndexOfFrom : List ℕ → ℕ → ℕ → ℤ
  | [], _, _ => -1
  | x :: xs, target, i =>
      if x = target then (i : ℤ) else jsIndexOfFrom xs target (i + 1)

/-- JavaScript `Array.prototype.indexOf`. -/
def jsIndexOf (l : List ℕ) (target : ℕ) : ℤ := jsIndexOfFrom l target 0

/-- JavaScript `Array.prototype.splice(start, deleteCount)` restricted to
deletion: a negative `start` counts back from the end of the array. -/
def jsSplice (l : List ℕ) (start0 : ℤ) (deleteCount : ℕ) : List ℕ :=
  let len : ℤ := l.length
  let s : ℤ := if start0 < 0 then max (len + start0) 0 else min start0 len
  l.take s.toNat ++ l.drop (s.toNat + deleteCount)

/-- NDLAThreeSixty.remove(threeElement):
`this.threeElements.splice(this.threeElements.indexOf(threeElement), 1)`. -/
def removeElement (l : List ℕ) (target : ℕ) : List ℕ :=
  jsSplice l (jsIndexOf l target) 1

/-! ## ZoomControls (src/scripts/zoom-controls.js)

All of its arithmetic (multiplication/division by `0.95 ^ zoomSpeed` and
min/max clamps against the integer field-of-view bounds) is exactly
rational, so the camera's `fov`/`zoom` fields are embedded as `ℚ`. -/

/-- FOV_PANORAMA constant (services/constants.js). -/
def FOV_PANORAMA : ℚ := 53

/-- FOV_SPHERE constant (services/constants.js). -/
def FOV_SPHERE : ℚ := 75

/-- ZOOM_MIN constant. -/
def ZOOM_MIN : ℚ := 1

/-- ZOOM_MAX constant. -/
def ZOOM_MAX : ℚ := 100

/-- The duck-typed Three.js camera as seen by `ZoomControls`: either
`isPerspectiveCamera` (with `fov`) or `isOrthographicCamera` (with `zoom`). -/
structure Camera where
  isPerspectiveCamera : Bool
  isOrthographicCamera : Bool
  fov : ℚ
  zoom : ℚ

/-- A perspective camera with the given field of view. -/
def perspCam (f : ℚ) : Camera :=
  { isPerspectiveCamera := true
    isOrthographicCamera := false
    fov := f
    zoom := 1 }

/-- Configuration state of a `ZoomControls` instance.  `zoomSpeed` is the
source's `1.0`, kept as the exponent used by `getZoomScale`. -/
structure ZoomControls where
  enabled : Bool
  minFov : ℚ
  maxFov : ℚ
  minZoom : ℚ
  maxZoom : ℚ
  enableZoom : Bool
  zoomSpeed : ℕ

/-- ZoomControls constructor: `minFov = 20`,
`maxFov = isPanorama ? FOV_PANORAMA : FOV_SPHERE`. -/
def ZoomControls.init (isPanorama : Bool) : ZoomControls :=
  { enabled := true
    minFov := 20
    maxFov := if isPanorama then FOV_PANORAMA else FOV_SPHERE
    minZoom := ZOOM_MIN
    maxZoom := ZOOM_MAX
    enableZoom := true
    zoomSpeed := 1 }

/-- ZoomControls.getZoomScale(): `Math.pow(0.95, this.zoomSpeed)`. -/
def getZoomScale (zc : ZoomControls) : ℚ := (95 / 100 : ℚ) ^ zc.zoomSpeed

/-- ZoomControls.dollyIn(dollyScale): `fov = clamp(fov * scale)` on a
perspective camera, `zoom = clamp(zoom * scale)` on an orthographic one;
`none` stands for the omitted argument (default scale). -/
def dollyIn (zc : ZoomControls) (cam : Camera) (dollyScale : Option ℚ) :
    Camera :=
  let s := dollyScale.getD (getZoomScale zc)
  if cam.isPerspectiveCamera then
    { cam with fov := max zc.minFov (min zc.maxFov (cam.fov * s)) }
  else if cam.isOrthographicCamera then
    { cam with zoom := max zc.minZoom (min zc.maxZoom (cam.zoom * s)) }
  else cam

/-- ZoomControls.dollyOut(dollyScale): like `dollyIn` but divides by the
scale. -/
def dollyOut (zc : ZoomControls) (cam : Camera) (dollyScale : Option ℚ) :
    Camera :=
  let s := dollyScale.getD (getZoomScale zc)
  if cam.isPerspectiveCamera then
    { cam with fov := max zc.minFov (min zc.maxFov (cam.fov / s)) }
  else if cam.isOrthographicCamera then
    { cam with zoom := max zc.minZoom (min zc.maxZoom (cam.zoom / s)) }
  else cam

/-- Iterated `dollyIn()` with the default scale. -/
def dollyInIter (zc : ZoomControls) : ℕ → Camera → Camera
  | 0, cam => cam
  | n + 1, cam => dollyInIter zc n (dollyIn zc cam none)

/-- Iterated `dollyOut()` with the default scale. -/
def dollyOutIter (zc : ZoomControls) : ℕ → Camera → Camera
  | 0, cam => cam
  | n + 1, cam => dollyOutIter zc n (dollyOut zc cam none)

/-! ## Helper lemmas -/

theorem jsIndexOfFrom_not_mem (l : List ℕ) (target : ℕ) (h : target ∉ l) :
    ∀ i, jsIndexOfFrom l target i = -1 := by
  induction l with
  | nil => intro i; rfl
  | cons x xs ih =>
      intro i
      have hx : x ≠ target := by
        intro hcontr
        exact h (hcontr ▸ List.mem_cons_self x xs)
      have hxs : target ∉ xs := fun hmem => h (List.mem_cons_of_mem x hmem)
      simp only [jsIndexOfFrom, if_neg hx]
      exact ih hxs (i + 1)

theorem move_alpha_eq (s : PCState) (dx dy f : ℝ) :
    ((move s dx dy f).1).alpha = jsMod (s.alpha + dx / f) (2 * Real.pi) := rfl

theorem move_beta_eq (s : PCState) (dx dy f : ℝ) :
    ((move s dx dy f).1).beta =
      if jsMod (s.beta + (if s.isPanorama then 0 else dy) / f) (2 * Real.pi)
          > Real.pi / 2 then Real.pi / 2
      else if jsMod (s.beta + (if s.isPanorama then 0 else dy) / f) (2 * Real.pi)
          < -(Real.pi / 2) then -(Real.pi / 2)
      else jsMod (s.beta + (if s.isPanorama then 0 else dy) / f) (2 * Real.pi) :=
  rfl

theorem move_betaDelta_eq (s : PCState) (dx dy f : ℝ) :
    (move s dx dy f).2.betaDelta = (if s.isPanorama then 0 else dy) / f := rfl

theorem move_alpha_range (s : PCState) (dx dy f : ℝ) :
    -(2 * Real.pi) < ((move s dx dy f).1).alpha
      ∧ ((move s dx dy f).1).alpha < 2 * Real.pi := by
  rw [move_alpha_eq]
  exact ⟨neg_lt_jsMod _ _ Real.two_pi_pos, jsMod_lt _ _ Real.two_pi_pos⟩

theorem applyMoves_cons_alpha_range (s : PCState) (m : ℝ × ℝ × ℝ)
    (ms : List (ℝ × ℝ × ℝ)) :
    -(2 * Real.pi) < (applyMoves s (m :: ms)).alpha
      ∧ (applyMoves s (m :: ms)).alpha < 2 * Real.pi := by
  induction ms generalizing s m with
  | nil => exact move_alpha_range s m.1 m.2.1 m.2.2
  | cons m2 rest ih => exact ih (move s m.1 m.2.1 m.2.2).1 m2

/-! ## Claim theorems -/

/-- Claim C4: calling `start` on a `PositionControls` instance while a
session is already active returns `false` and leaves the whole controller
state (active-session marker, recorded origin, accumulated alpha/beta)
unchanged. -/
theorem C4_start_rejected (s : PCState) (x y : ℝ) (control : String)
    (movestartPrevented : Bool) (h : strTruthy s.controlActive = true) :
    start s x y control movestartPrevented = (false, s) := by
  simp [start, h]

/-- A concrete session: accepted `start`, then one `move`; the session's
control marker is `some "mouse"`. -/
noncomputable def activeState : PCState := (move startedState 10 0 400).1

/-- Witness for C4: on the concrete state left by a first accepted `start`
and a `move`, a second `start` returns `false` and changes nothing. -/
theorem C4_start_rejected_witness :
    strTruthy activeState.controlActive = true ∧
      start activeState 5 5 "touch" false = (false, activeState) := by
  have h : strTruthy activeState.controlActive = true := by rfl
  exact ⟨h, C4_start_rejected activeState 5 5 "touch" false h⟩

/-- Claim C6: `setElementPosition` places the element at
`(800 sin yaw cos pitch, 800 sin pitch, -800 cos yaw cos pitch)` with
rotation order `YXZ` (yaw-then-pitch-then-roll), `rotation.y = -yaw`,
`rotation.x = pitch`; in particular yaw = 0, pitch = 0 gives
`(0, 0, -800)` and yaw = pi/2, pitch = 0 gives `(800, 0, 0)`. -/
theorem C6_setElementPosition (el : ThreeObject) (yaw pitch : ℝ) :
    (setElementPosition el ⟨yaw, pitch⟩).position.x
        = 800 * Real.sin yaw * Real.cos pitch
      ∧ (setElementPosition el ⟨yaw, pitch⟩).position.y
        = 800 * Real.sin pitch
      ∧ (setElementPosition el ⟨yaw, pitch⟩).position.z
        = -(800 * Real.cos yaw * Real.cos pitch)
      ∧ (setElementPosition el ⟨yaw, pitch⟩).rotation.order = "YXZ"
      ∧ (setElementPosition el ⟨yaw, pitch⟩).rotation.y = -yaw
      ∧ (setElementPosition el ⟨yaw, pitch⟩).rotation.x = pitch
      ∧ (setElementPosition el ⟨0, 0⟩).position = ⟨0, 0, -800⟩
      ∧ (setElementPosition el ⟨Real.pi / 2, 0⟩).position = ⟨800, 0, 0⟩ := by
  refine ⟨rfl, rfl, by simp [setElementPosition], rfl, rfl, rfl, ?_, ?_⟩
  · simp [setElementPosition, Vec3.mk.injEq]
  · simp [setElementPosition, Vec3.mk.injEq]

/-- Claim C8: while the `preventDeviceOrientation` suspension flag is set,
`setCameraPosition` changes no coordinator state and emits no event. -/
theorem C8_setCameraPosition_suspended (s : CoordState) (yaw pitch : ℝ)
    (h : s.preventDeviceOrientation = true) :
    setCameraPosition s yaw pitch = (s, []) := by
  simp [setCameraPosition, h]

/-- A concrete suspended coordinator state (drag in progress). -/
def suspendedCoord : CoordState :=
  { cameraRotY := 0
    cameraRotX := 0
    isPanorama := false
    preventDeviceOrientation := true
    preventCameraMovement := false
    threeElements := [] }

/-- Witness for C8: the suspended no-op at a concrete state and angles. -/
theorem C8_setCameraPosition_suspended_witness :
    setCameraPosition suspendedCoord 1 2 = (suspendedCoord, []) :=
  C8_setCameraPosition_suspended suspendedCoord 1 2 rfl

/-- Claim C9: `remove` on a handle that is not in the collection deletes the
collection's last element (`indexOf` yields `-1` and `splice(-1, 1)` removes
the final entry); on an empty collection it is a no-op (and
`dropLast [] = []`). -/
theorem C9_remove_missing (l : List ℕ) (target : ℕ) (h : target ∉ l) :
    removeElement l target = l.dropLast := by
  have hidx : jsIndexOf l target = -1 := jsIndexOfFrom_not_mem l target h 0
  unfold removeElement
  rw [hidx]
  unfold jsSplice
  cases l with
  | nil => rfl
  | cons a as =>
      have hlen : (1 : ℤ) ≤ ((a :: as).length : ℤ) := by
        simp [List.length_cons]
      have hs : (if (-1 : ℤ) < 0 then
          max (((a :: as).length : ℤ) + -1) 0
          else min (-1) ((a :: as).length : ℤ)) = ((a :: as).length : ℤ) - 1 := by
        rw [if_pos (by norm_num)]
        rw [max_eq_left (by omega)]
        ring
      simp only [hs]
      have htn : (((a :: as).length : ℤ) - 1).toNat = (a :: as).length - 1 := by
        omega
      rw [htn]
      have hdrop : (a :: as).length - 1 + 1 = (a :: as).length := by
        simp [List.length_cons]
      rw [hdrop, List.drop_length, List.append_nil, List.dropLast_eq_take]

/-- Witness for C9: removing the absent handle 7 from `[1, 2, 3]` deletes
the last element. -/
theorem C9_remove_missing_witness :
    removeElement [1, 2, 3] 7 = [1, 2] :=
  (C9_remove_missing [1, 2, 3] 7 (by decide)).trans (by decide)

/-- Claim C10: with the suspension flag clear, `getCurrentPosition` after
`setCameraPosition yaw pitch` returns exactly `(yaw, pitch)` (the camera
stores `rotation.y = -yaw` and the getter negates again); in panorama mode
the stored and returned pitch is 0 instead. -/
theorem C10_set_get_roundtrip (s : CoordState) (yaw pitch : ℝ)
    (h : s.preventDeviceOrientation = false) :
    getCurrentPosition (setCameraPosition s yaw pitch).1
      = (yaw, if s.isPanorama then 0 else pitch) := by
  simp [setCameraPosition, getCurrentPosition, h]

/-- A concrete live (not suspended, not panorama) coordinator state. -/
def liveCoord : CoordState :=
  { cameraRotY := 5
    cameraRotX := 7
    isPanorama := false
    preventDeviceOrientation := false
    preventCameraMovement := false
    threeElements := [] }

/-- Witness for C10: the round trip at a concrete state and angles. -/
theorem C10_set_get_roundtrip_witness :
    getCurrentPosition (setCameraPosition liveCoord 3 1).1 = (3, 1) := by
  have h := C10_set_get_roundtrip liveCoord 3 1 rfl
  simpa [liveCoord] using h

/-- Counterexample for C1: from a fresh session (alpha = 0), the single call
`move(-400, 0, 400)` leaves the accumulated alpha at `-1`: JavaScript's `%`
keeps the dividend's sign and `PositionControls.move` never remaps negative
accumulators into `[0, 2*pi)`. -/
theorem C1_counterexample :
    ((move startedState (-400) 0 400).1).alpha = -1 ∧
      ((move startedState (-400) 0 400).1).alpha < 0 := by
  have h0 : startedState.alpha = 0 := rfl
  have hval : ((move startedState (-400) 0 400).1).alpha
      = jsMod (0 + (-400) / 400) (2 * Real.pi) := by
    rw [move_alpha_eq, h0]
  have harg : (0 : ℝ) + (-400) / 400 = -1 := by norm_num
  have habs : |(-1 : ℝ)| < 2 * Real.pi := by
    rw [abs_neg, abs_one]
    nlinarith [Real.pi_gt_three]
  have hmod : jsMod (-1) (2 * Real.pi) = -1 :=
    jsMod_eq_self _ _ Real.two_pi_pos habs
  rw [hval, harg, hmod]
  norm_num

/-- Claim C1 (amended): for every control session and every nonempty
sequence of `move` calls, the accumulated alpha lies in the open interval
`(-2*pi, 2*pi)`; the JavaScript remainder keeps the dividend's sign, and the
remap of negative yaw into `[0, 2*pi)` happens only later, in the camera
`move` handler, not on the session accumulator. -/
theorem C1_session_alpha_range (s : PCState) (ms : List (ℝ × ℝ × ℝ))
    (h : ms ≠ []) :
    -(2 * Real.pi) < (applyMoves s ms).alpha
      ∧ (applyMoves s ms).alpha < 2 * Real.pi := by
  cases ms with
  | nil => exact absurd rfl h
  | cons m rest => exact applyMoves_cons_alpha_range s m rest

/-- Witness for C1 (amended): one concrete leftward move from a fresh
session stays within `(-2*pi, 2*pi)`. -/
theorem C1_session_alpha_range_witness :
    -(2 * Real.pi) < (applyMoves startedState [(-400, 0, 400)]).alpha
      ∧ (applyMoves startedState [(-400, 0, 400)]).alpha < 2 * Real.pi :=
  C1_session_alpha_range startedState [(-400, 0, 400)] (by simp)

/-- Counterexample for C3: from a fresh session (beta = 0, sphere mode), the
single call `move(0, 2800, 400)` has `dBeta = 7`; the code reduces
`beta + dBeta` modulo `2*pi` before clamping, producing `7 - 2*pi` (inside
the clamp range), while `clamp(beta + dBeta, -pi/2, pi/2)` would be `pi/2`. -/
theorem C3_counterexample :
    ((move startedState 0 2800 400).1).beta
      ≠ max (-(Real.pi / 2)) (min (Real.pi / 2) (startedState.beta + 2800 / 400)) := by
  have hpan : startedState.isPanorama = false := rfl
  have hβ : startedState.beta = 0 := rfl
  have hpos : (0 : ℝ) < 2 * Real.pi := Real.two_pi_pos
  have harg : startedState.beta + (if startedState.isPanorama then 0 else (2800:ℝ)) / 400
      = 7 := by
    rw [hβ, hpan]
    norm_num
  have hfl : ⌊(7 : ℝ) / (2 * Real.pi)⌋ = 1 := by
    rw [Int.floor_eq_iff]
    push_cast
    constructor
    · rw [le_div_iff₀ hpos]
      nlinarith [Real.pi_lt_d2]
    · rw [div_lt_iff₀ hpos]
      nlinarith [Real.pi_gt_d6]
  have hmod : jsMod 7 (2 * Real.pi) = 7 - 2 * Real.pi := by
    unfold jsMod jsTrunc
    have hd : 0 ≤ (7 : ℝ) / (2 * Real.pi) := by positivity
    rw [if_pos hd, hfl]
    push_cast
    ring
  have hlhs : ((move startedState 0 2800 400).1).beta = 7 - 2 * Real.pi := by
    rw [move_beta_eq, harg, hmod]
    rw [if_neg (by nlinarith [Real.pi_gt_d6] : ¬ (7 - 2 * Real.pi > Real.pi / 2))]
    rw [if_neg (by nlinarith [Real.pi_lt_d2] : ¬ (7 - 2 * Real.pi < -(Real.pi / 2)))]
  have hrhs : max (-(Real.pi / 2)) (min (Real.pi / 2) (startedState.beta + 2800 / 400))
      = Real.pi / 2 := by
    rw [hβ]
    have h7 : (0 : ℝ) + 2800 / 400 = 7 := by norm_num
    rw [h7, min_eq_left (by nlinarith [Real.pi_lt_d2] : Real.pi / 2 ≤ 7),
      max_eq_right (by nlinarith [Real.pi_pos] : -(Real.pi / 2) ≤ Real.pi / 2)]
  rw [hlhs, hrhs]
  intro hcontr
  nlinarith [Real.pi_gt_d6]

/-- Claim C3 (amended): with panorama off, a single move step sets the new
pitch accumulator to `clamp((beta + dBeta) mod 2*pi, -pi/2, pi/2)` with
JavaScript's truncated remainder; whenever `|beta + dBeta| < 2*pi` (small
and moderate deltas, but not every magnitude) this agrees with
`clamp(beta + dBeta, -pi/2, pi/2)`. -/
theorem C3_pitch_clamp_small (s : PCState) (dx dy f : ℝ)
    (hpan : s.isPanorama = false) (h : |s.beta + dy / f| < 2 * Real.pi) :
    ((move s dx dy f).1).beta
      = max (-(Real.pi / 2)) (min (Real.pi / 2) (s.beta + dy / f)) := by
  rw [move_beta_eq, hpan]
  simp only [Bool.false_eq_true, if_false]
  rw [jsMod_eq_self _ _ Real.two_pi_pos h]
  rcases lt_or_le (Real.pi / 2) (s.beta + dy / f) with hx | hx
  · rw [if_pos hx, min_eq_left (le_of_lt hx),
      max_eq_right (by nlinarith [Real.pi_pos] : -(Real.pi / 2) ≤ Real.pi / 2)]
  · rw [if_neg (not_lt.mpr hx)]
    rcases lt_or_le (s.beta + dy / f) (-(Real.pi / 2)) with hx2 | hx2
    · rw [if_pos hx2, min_eq_right hx, max_eq_left (le_of_lt hx2)]
    · rw [if_neg (not_lt.mpr hx2), min_eq_right hx, max_eq_right hx2]

/-- Witness for C3 (amended): `move(0, 400, 400)` from a fresh session gives
pitch accumulator `clamp(0 + 1) = 1`. -/
theorem C3_pitch_clamp_small_witness :
    ((move startedState 0 400 400).1).beta
        = max (-(Real.pi / 2)) (min (Real.pi / 2) (startedState.beta + 400 / 400))
      ∧ ((move startedState 0 400 400).1).beta = 1 := by
  have hβ : startedState.beta = 0 := rfl
  have h : |startedState.beta + 400 / 400| < 2 * Real.pi := by
    rw [hβ]
    norm_num
    nlinarith [Real.pi_gt_three]
  have happ := C3_pitch_clamp_small startedState 0 400 400 rfl h
  refine ⟨happ, ?_⟩
  rw [happ, hβ]
  have h1 : (0 : ℝ) + 400 / 400 = 1 := by norm_num
  rw [h1, min_eq_right (by nlinarith [Real.pi_gt_three] : (1 : ℝ) ≤ Real.pi / 2),
    max_eq_right (by nlinarith [Real.pi_pos] : -(Real.pi / 2) ≤ (1 : ℝ))]

/-- Claim C7: in panorama mode every `move(dx, dy, f)` produces a `move`
event with `betaDelta = 0` and leaves the pitch accumulator unchanged, for
every `dy`; the accumulator is always inside `[-pi/2, pi/2]` (it starts at 0
and the clamp keeps it there), which the hypothesis records. -/
theorem C7_panorama_move (s : PCState) (dx dy f : ℝ)
    (hpan : s.isPanorama = true) (h1 : -(Real.pi / 2) ≤ s.beta)
    (h2 : s.beta ≤ Real.pi / 2) :
    (move s dx dy f).2.betaDelta = 0 ∧ ((move s dx dy f).1).beta = s.beta := by
  constructor
  · rw [move_betaDelta_eq, hpan]
    simp
  · rw [move_beta_eq, hpan]
    simp only [if_true, zero_div, add_zero]
    have habs : |s.beta| < 2 * Real.pi := by
      rw [abs_lt]
      constructor <;> nlinarith [Real.pi_pos]
    rw [jsMod_eq_self _ _ Real.two_pi_pos habs]
    rw [if_neg (not_lt.mpr h2), if_neg (not_lt.mpr h1)]

/-- A concrete panorama-mode controller state right after an accepted
`start` (pitch accumulator 0). -/
noncomputable def panoState : PCState :=
  (start (pcInit 400 true true true) 0 0 "mouse" false).2

/-- Witness for C7: a concrete panorama move with `dy = 7 ≠ 0` emits
`betaDelta = 0` and keeps beta at 0. -/
theorem C7_panorama_move_witness :
    (move panoState 5 7 400).2.betaDelta = 0
      ∧ ((move panoState 5 7 400).1).beta = panoState.beta := by
  have hβ : panoState.beta = 0 := rfl
  refine C7_panorama_move panoState 5 7 400 rfl ?_ ?_
  · rw [hβ]
    nlinarith [Real.pi_pos]
  · rw [hβ]
    nlinarith [Real.pi_pos]

/-- Claim C5: the camera `move` handler applies the requested pitch
`startX + beta` clamped to `[-(MAX_PITCH - fovRad/2), MAX_PITCH - fovRad/2]`
where `fovRad` is the vertical field of view in radians (hypotheses:
a geometrically meaningful field of view between 0 and 180 degrees). -/
theorem C5_camera_pitch_clamp (fieldOfView startY startX : ℝ) (ev : MoveEvent)
    (h0 : 0 ≤ fieldOfView) (h180 : fieldOfView ≤ 180) :
    (cameraMoveHandler fieldOfView startY startX ev).2
      = max (-(MAX_PITCH - toRad fieldOfView / 2))
          (min (MAX_PITCH - toRad fieldOfView / 2) (startX + ev.beta)) := by
  have hM : toRad fieldOfView / 2 ≤ MAX_PITCH := by
    unfold toRad MAX_PITCH
    nlinarith [Real.pi_pos]
  have hr : 0 ≤ toRad fieldOfView / 2 := by
    unfold toRad
    have : 0 ≤ Real.pi / 180 := by positivity
    have := mul_nonneg h0 this
    linarith
  show (if startX + ev.beta + toRad fieldOfView / 2 > MAX_PITCH then
          MAX_PITCH - toRad fieldOfView / 2
        else if startX + ev.beta - toRad fieldOfView / 2 < -MAX_PITCH then
          -MAX_PITCH + toRad fieldOfView / 2
        else startX + ev.beta) = _
  set r := toRad fieldOfView / 2 with hrdef
  set M := MAX_PITCH with hMdef
  set p := startX + ev.beta with hpdef
  rcases lt_or_le M (p + r) with h1 | h1
  · rw [if_pos h1, min_eq_left (by linarith), max_eq_right (by linarith)]
  · rw [if_neg (not_lt.mpr h1)]
    rcases lt_or_le (p - r) (-M) with h2 | h2
    · rw [if_pos h2, min_eq_right (by linarith), max_eq_left (by linarith)]
      ring
    · rw [if_neg (not_lt.mpr h2), min_eq_right (by linarith),
        max_eq_right (by linarith)]

/-- Witness for C5: with a 75-degree field of view, requesting pitch 1.3
clamps to `MAX_PITCH - toRad(75)/2 = 7*pi/24`, which lies in (0.91, 0.92),
matching the spec's approximate 0.915. -/
theorem C5_camera_pitch_clamp_witness :
    (cameraMoveHandler 75 0 0 ⟨0, 0, 0, 1.3⟩).2 = MAX_PITCH - toRad 75 / 2
      ∧ 0.91 < MAX_PITCH - toRad 75 / 2 ∧ MAX_PITCH - toRad 75 / 2 < 0.92 := by
  have happ := C5_camera_pitch_clamp 75 0 0 ⟨0, 0, 0, 1.3⟩ (by norm_num) (by norm_num)
  have hMr : MAX_PITCH - toRad 75 / 2 = Real.pi * 7 / 24 := by
    unfold MAX_PITCH toRad
    ring
  have hbeta : (⟨0, 0, 0, 1.3⟩ : MoveEvent).beta = 1.3 := rfl
  have hle : MAX_PITCH - toRad 75 / 2 ≤ (0 : ℝ) + 1.3 := by
    rw [hMr]
    nlinarith [Real.pi_lt_d2]
  have hnn : -(MAX_PITCH - toRad 75 / 2) ≤ MAX_PITCH - toRad 75 / 2 := by
    rw [hMr]
    nlinarith [Real.pi_pos]
  refine ⟨?_, ?_, ?_⟩
  · rw [happ, hbeta, min_eq_left (by simpa using hle), max_eq_right hnn]
  · rw [hMr]
    nlinarith [Real.pi_gt_d6]
  · rw [hMr]
    nlinarith [Real.pi_lt_d2]

/-! ## ZoomControls lemmas -/

theorem getZoomScale_init (pan : Bool) :
    getZoomScale (ZoomControls.init pan) = 19 / 20 := by
  cases pan <;> norm_num [getZoomScale, ZoomControls.init]

theorem maxFov_init_lb (pan : Bool) : (20 : ℚ) ≤ (ZoomControls.init pan).maxFov := by
  cases pan <;> norm_num [ZoomControls.init, FOV_PANORAMA, FOV_SPHERE]

theorem maxFov_init_ub (pan : Bool) : (ZoomControls.init pan).maxFov ≤ 75 := by
  cases pan <;> norm_num [ZoomControls.init, FOV_PANORAMA, FOV_SPHERE]

theorem dollyIn_perspCam (zc : ZoomControls) (f : ℚ) :
    dollyIn zc (perspCam f) none
      = perspCam (max zc.minFov (min zc.maxFov (f * getZoomScale zc))) := rfl

theorem dollyOut_perspCam (zc : ZoomControls) (f : ℚ) :
    dollyOut zc (perspCam f) none
      = perspCam (max zc.minFov (min zc.maxFov (f / getZoomScale zc))) := rfl

/-- Closed form for iterated `dollyIn` on a perspective camera starting
inside `[minFov, maxFov]`: the clamp at `maxFov` never engages and the fov
follows `max 20 (f * 0.95^n)`. -/
theorem dollyInIter_fov (pan : Bool) :
    ∀ (n : ℕ) (f : ℚ), 20 ≤ f → f ≤ (ZoomControls.init pan).maxFov →
      (dollyInIter (ZoomControls.init pan) n (perspCam f)).fov
        = max 20 (f * (19 / 20) ^ n) := by
  intro n
  induction n with
  | zero =>
      intro f h1 h2
      show f = max 20 (f * (19 / 20) ^ 0)
      rw [pow_zero, mul_one, max_eq_right h1]
  | succ n ih =>
      intro f h1 h2
      show (dollyInIter (ZoomControls.init pan) n
          (dollyIn (ZoomControls.init pan) (perspCam f) none)).fov = _
      rw [dollyIn_perspCam, getZoomScale_init]
      have hf0 : (0 : ℚ) < f := by linarith
      have hstep : f * (19 / 20) ≤ f := by nlinarith
      have hmin : min (ZoomControls.init pan).maxFov (f * (19 / 20))
          = f * (19 / 20) := min_eq_right (le_trans hstep h2)
      have hminFov : (ZoomControls.init pan).minFov = 20 := by
        cases pan <;> rfl
      rw [hminFov, hmin]
      rcases le_or_lt 20 (f * (19 / 20)) with hc | hc
      · rw [max_eq_right hc, ih (f * (19 / 20)) hc (le_trans hstep h2)]
        rw [pow_succ]
        ring_nf
      · rw [max_eq_left (le_of_lt hc), ih 20 le_rfl (maxFov_init_lb pan)]
        have hq1 : ((19 : ℚ) / 20) ^ n ≤ 1 := pow_le_one₀ (by norm_num) (by norm_num)
        have hq0 : (0 : ℚ) ≤ (19 / 20) ^ n := by positivity
        have e1 : (20 : ℚ) * (19 / 20) ^ n ≤ 20 := by nlinarith
        have e2 : f * (19 / 20) ^ (n + 1) ≤ 20 := by
          rw [pow_succ]
          nlinarith
        rw [max_eq_left e1, max_eq_left e2]

/-- Closed form for iterated `dollyOut` on a perspective camera starting
inside `[minFov, maxFov]`: the clamp at `minFov` never engages and the fov
follows `min maxFov (f / 0.95^n)`. -/
theorem dollyOutIter_fov (pan : Bool) :
    ∀ (n : ℕ) (f : ℚ), 20 ≤ f → f ≤ (ZoomControls.init pan).maxFov →
      (dollyOutIter (ZoomControls.init pan) n (perspCam f)).fov
        = min (ZoomControls.init pan).maxFov (f * (20 / 19) ^ n) := by
  intro n
  induction n with
  | zero =>
      intro f h1 h2
      show f = min (ZoomControls.init pan).maxFov (f * (20 / 19) ^ 0)
      rw [pow_zero, mul_one, min_eq_right h2]
  | succ n ih =>
      intro f h1 h2
      show (dollyOutIter (ZoomControls.init pan) n
          (dollyOut (ZoomControls.init pan) (perspCam f) none)).fov = _
      rw [dollyOut_perspCam, getZoomScale_init]
      have hdiv : f / (19 / 20 : ℚ) = f * (20 / 19) := by ring
      rw [hdiv]
      have hf0 : (0 : ℚ) < f := by linarith
      have hstep : f ≤ f * (20 / 19) := by nlinarith
      have hminFov : (ZoomControls.init pan).minFov = 20 := by
        cases pan <;> rfl
      have hmax : max (20 : ℚ)
          (min (ZoomControls.init pan).maxFov (f * (20 / 19)))
          = min (ZoomControls.init pan).maxFov (f * (20 / 19)) :=
        max_eq_right (le_min (maxFov_init_lb pan) (le_trans h1 hstep))
      rw [hminFov, hmax]
      rcases le_or_lt (f * (20 / 19)) (ZoomControls.init pan).maxFov with hc | hc
      · rw [min_eq_right hc, ih (f * (20 / 19)) (le_trans h1 hstep) hc]
        rw [pow_succ]
        ring_nf
      · rw [min_eq_left (le_of_lt hc),
          ih (ZoomControls.init pan).maxFov (maxFov_init_lb pan) le_rfl]
        have hr1 : (1 : ℚ) ≤ (20 / 19) ^ n := one_le_pow₀ (by norm_num)
        have hM0 : (0 : ℚ) < (ZoomControls.init pan).maxFov :=
          lt_of_lt_of_le (by norm_num) (maxFov_init_lb pan)
        have e1 : (ZoomControls.init pan).maxFov
            ≤ (ZoomControls.init pan).maxFov * (20 / 19) ^ n := by nlinarith
        have e2 : (ZoomControls.init pan).maxFov ≤ f * (20 / 19) ^ (n + 1) := by
          rw [pow_succ]
          nlinarith
        rw [min_eq_left e1, min_eq_left e2]

/-- After 26 default-scale `dollyIn` steps from anywhere in
`[minFov, maxFov]`, the fov sits exactly at `minFov = 20` and stays there. -/
theorem dollyInIter_reaches_min (pan : Bool) (f : ℚ) (h1 : 20 ≤ f)
    (h2 : f ≤ (ZoomControls.init pan).maxFov) (n : ℕ) (hn : 26 ≤ n) :
    (dollyInIter (ZoomControls.init pan) n (perspCam f)).fov = 20 := by
  rw [dollyInIter_fov pan n f h1 h2]
  have hf75 : f ≤ 75 := le_trans h2 (maxFov_init_ub pan)
  have hq : ((19 : ℚ) / 20) ^ n ≤ (19 / 20) ^ 26 :=
    pow_le_pow_of_le_one (by norm_num) (by norm_num) hn
  have hq0 : (0 : ℚ) ≤ (19 / 20) ^ n := by positivity
  have h26 : (75 : ℚ) * (19 / 20) ^ 26 < 20 := by norm_num
  have : f * (19 / 20) ^ n ≤ 20 := by nlinarith
  exact max_eq_left this

/-- After 26 default-scale `dollyOut` steps from anywhere in
`[minFov, maxFov]`, the fov sits exactly at `maxFov` and stays there. -/
theorem dollyOutIter_reaches_max (pan : Bool) (f : ℚ) (h1 : 20 ≤ f)
    (h2 : f ≤ (ZoomControls.init pan).maxFov) (n : ℕ) (hn : 26 ≤ n) :
    (dollyOutIter (ZoomControls.init pan) n (perspCam f)).fov
      = (ZoomControls.init pan).maxFov := by
  rw [dollyOutIter_fov pan n f h1 h2]
  have hr : ((20 : ℚ) / 19) ^ 26 ≤ (20 / 19) ^ n :=
    pow_le_pow_right₀ (by norm_num) hn
  have h26 : (75 : ℚ) ≤ 20 * (20 / 19) ^ 26 := by norm_num
  have hub : (ZoomControls.init pan).maxFov ≤ 75 := maxFov_init_ub pan
  have : (ZoomControls.init pan).maxFov ≤ f * (20 / 19) ^ n := by nlinarith
  exact min_eq_left this

/-- Counterexample for C2: starting at fov = 75 = maxFov (sphere mode), the
sequence of repeated `dollyIn()` calls does not converge to `maxFov`;
`dollyIn` multiplies the fov by 0.95, so the sequence reaches the opposite
bound `minFov = 20` and stays there. -/
theorem C2_counterexample :
    ¬ Filter.Tendsto
        (fun n => (dollyInIter (ZoomControls.init false) n (perspCam 75)).fov)
        Filter.atTop (nhds ((ZoomControls.init false).maxFov)) := by
  intro hcontr
  have hev : (fun _ : ℕ => (20 : ℚ)) =ᶠ[Filter.atTop]
      (fun n => (dollyInIter (ZoomControls.init false) n (perspCam 75)).fov) := by
    rw [Filter.eventuallyEq_iff_exists_mem]
    refine ⟨{n | 26 ≤ n}, Filter.mem_atTop 26, fun n hn => ?_⟩
    exact (dollyInIter_reaches_min false 75 (by norm_num)
      (by norm_num [ZoomControls.init, FOV_SPHERE]) n hn).symm
  have h20 : Filter.Tendsto
      (fun n => (dollyInIter (ZoomControls.init false) n (perspCam 75)).fov)
      Filter.atTop (nhds 20) := tendsto_const_nhds.congr' hev
  have heq := tendsto_nhds_unique h20 hcontr
  norm_num [ZoomControls.init, FOV_SPHERE] at heq

/-- Claim C2 (amended): for every starting fov in `[minFov, maxFov]` on a
perspective camera, repeated default-scale `dollyIn()` never leaves
`[minFov, maxFov]` and converges to (in fact reaches, from step 26 on)
`minFov = 20`, while repeated `dollyOut()` never exceeds `maxFov`
(75 in sphere mode, 53 in panorama mode) and reaches it from step 26 on;
the spec has the two directions swapped. -/
theorem C2_zoom_clamp (pan : Bool) (f : ℚ) (h1 : 20 ≤ f)
    (h2 : f ≤ (ZoomControls.init pan).maxFov) :
    (∀ n : ℕ, 20 ≤ (dollyInIter (ZoomControls.init pan) n (perspCam f)).fov
        ∧ (dollyInIter (ZoomControls.init pan) n (perspCam f)).fov
            ≤ (ZoomControls.init pan).maxFov)
      ∧ (∀ n : ℕ, 26 ≤ n →
          (dollyInIter (ZoomControls.init pan) n (perspCam f)).fov = 20)
      ∧ (∀ n : ℕ, 20 ≤ (dollyOutIter (ZoomControls.init pan) n (perspCam f)).fov
          ∧ (dollyOutIter (ZoomControls.init pan) n (perspCam f)).fov
              ≤ (ZoomControls.init pan).maxFov)
      ∧ (∀ n : ℕ, 26 ≤ n →
          (dollyOutIter (ZoomControls.init pan) n (perspCam f)).fov
            = (ZoomControls.init pan).maxFov) := by
  have hq1 : ∀ n : ℕ, ((19 : ℚ) / 20) ^ n ≤ 1 :=
    fun n => pow_le_one₀ (by norm_num) (by norm_num)
  have hr1 : ∀ n : ℕ, (1 : ℚ) ≤ (20 / 19) ^ n :=
    fun n => one_le_pow₀ (by norm_num)
  refine ⟨fun n => ?_, fun n hn => dollyInIter_reaches_min pan f h1 h2 n hn,
    fun n => ?_, fun n hn => dollyOutIter_reaches_max pan f h1 h2 n hn⟩
  · rw [dollyInIter_fov pan n f h1 h2]
    constructor
    · exact le_max_left _ _
    · have hq0 : (0 : ℚ) ≤ (19 / 20) ^ n := by positivity
      have : f * (19 / 20) ^ n ≤ f := by nlinarith [hq1 n]
      exact max_le (maxFov_init_lb pan) (le_trans this h2)
  · rw [dollyOutIter_fov pan n f h1 h2]
    constructor
    · have : (20 : ℚ) ≤ f * (20 / 19) ^ n := by nlinarith [hr1 n]
      exact le_min (maxFov_init_lb pan) this
    · exact min_le_left _ _

/-- Witness for C2 (amended): starting at fov = 75 in sphere mode, 26
`dollyIn` steps land exactly on 20 and 26 `dollyOut` steps land exactly on
`maxFov`. -/
theorem C2_zoom_clamp_witness :
    (dollyInIter (ZoomControls.init false) 26 (perspCam 75)).fov = 20
      ∧ (dollyOutIter (ZoomControls.init false) 26 (perspCam 75)).fov
          = (ZoomControls.init false).maxFov := by
  have h := C2_zoom_clamp false 75 (by norm_num)
    (by norm_num [ZoomControls.init, FOV_SPHERE])
  exact ⟨h.2.1 26 le_rfl, h.2.2.2 26 le_rfl⟩

end ThreeSixty
